import Mathlib

/-!
Verification development for the accountbox CLI: a shallow embedding of its
configuration merging, account-argument disambiguation, credential lifecycle
state machine, port guard, email masking and bounded-concurrency limits
fan-out, with theorems checking the documented properties against the code.
-/

set_option autoImplicit false

namespace Accountbox

/-! ## JavaScript object model

JavaScript plain objects are modelled as ordered association lists; the
spread `\x7b...a, ...b\x7d` is concatenation, and property lookup takes the
last binding for a key (a later spread overwrites an earlier one).
-/

/-- A JavaScript object: ordered key/value bindings, later bindings win. -/
abbrev JsObj (V : Type) : Type := List (String × V)

/-- Property lookup: the value of the last binding for `k`, if any. -/
def jsGet {V : Type} (o : JsObj V) (k : String) : Option V :=
  (o.reverse.find? (fun p => p.1 == k)).map (·.2)

/-- The JS spread `\x7b...a, ...b\x7d`: bindings of `a` then bindings of `b`. -/
def jsSpread {V : Type} (a b : JsObj V) : JsObj V := a ++ b

/-- JS string truthiness for an optional string: `undefined` and `""` are falsy. -/
def jsTruthyStr (v : Option String) : Bool :=
  match v with
  | none => false
  | some s => !(s == "")

/-- The JS idiom `v || d` on an optional string: `d` when `v` is falsy. -/
def jsOrStr (v : Option String) (d : String) : String :=
  match v with
  | none => d
  | some s => if s == "" then d else s

theorem jsGet_append {V : Type} (a b : JsObj V) (k : String) :
    jsGet (jsSpread a b) k = ((jsGet b k).rec (jsGet a k) (fun v => some v) : Option V) := by
  unfold jsSpread jsGet
  rw [List.reverse_append, List.find?_append]
  cases h : (b.reverse.find? (fun p => p.1 == k)) with
  | none => simp [Option.orElse, h]
  | some p => simp [Option.orElse, h]

theorem jsGet_append_of_some {V : Type} (a b : JsObj V) (k : String) (v : V)
    (h : jsGet b k = some v) : jsGet (jsSpread a b) k = some v := by
  rw [jsGet_append, h]

theorem jsGet_append_of_none {V : Type} (a b : JsObj V) (k : String)
    (h : jsGet b k = none) : jsGet (jsSpread a b) k = jsGet a k := by
  rw [jsGet_append, h]

/-! ## ConfigStore: tool-table merging (src/src/config/tools.js)

A TOML tool definition `[tools.<id>]` is itself a JS object of fields; we
keep field values abstract as strings (the claims never inspect them beyond
equality).
-/

/-- One configured tool definition: the raw field table from TOML. -/
abbrev ToolDef : Type := JsObj String

/-- Parsed TOML document data as far as tool merging is concerned. -/
structure TomlData where
  tools : Option (JsObj ToolDef)

/-- `mergeTools(projectData, userData)` from src/src/config/tools.js:
`\x7b ...(userData?.tools || \x7b\x7d), ...(projectData?.tools || \x7b\x7d) \x7d`. -/
def mergeTools (projectData userData : Option TomlData) : JsObj ToolDef :=
  jsSpread
    ((userData.bind (·.tools)).getD [])
    ((projectData.bind (·.tools)).getD [])

/-! ## AccountResolver (src/src/util/args.js, src/src/config/project.js) -/

/-- JS `String.prototype.startsWith`, as a structural check on the
character lists. -/
def jsStartsWith (s p : String) : Bool :=
  p.toList.isPrefixOf s.toList

/-- `looksLikeOption(token)`: a string starting with a dash. -/
def looksLikeOption (t : Option String) : Bool :=
  match t with
  | some s => jsStartsWith s "-"
  | none => false

/-- Result record of `disambiguateAccountArg`. -/
structure DisambigResult where
  accountArg : Option String
  argsList : List String
  accountIsSubcommand : Bool
  accountLooksLikeOption : Bool
  deriving DecidableEq, Repr

/-- `disambiguateAccountArg(\x7baccount, args, knownSubcommands\x7d)` from
src/src/util/args.js.  `knownSubcommands` may be null (`none`). -/
def disambiguateAccountArg (account : Option String) (args : List String)
    (known : Option (List String)) : DisambigResult :=
  match account with
  | none => ⟨none, args, false, false⟩
  | some a =>
    if (!(a == "")) && ((known.getD []).contains a) || jsStartsWith a "-" then
      ⟨none, a :: args, (!(a == "")) && ((known.getD []).contains a), jsStartsWith a "-"⟩
    else
      ⟨some a, args, (!(a == "")) && ((known.getD []).contains a), jsStartsWith a "-"⟩

/-- `CODEX_HELPER_SUBCOMMANDS` from src/src/tools/builtins/codex.js. -/
def CODEX_HELPER_SUBCOMMANDS : List String :=
  ["app", "login", "logout", "status", "whoami", "limits", "rebuild",
   "list", "snapshots", "save", "switch", "use"]

/-- The error message thrown by `resolveAccountOrThrow`. -/
def missingAccountMsg (defaultsKey : String) : String :=
  "Missing account. Provide <account> or set a default in .accountbox.toml (" ++
    defaultsKey ++ ")."

/-- `resolveAccountOrThrow(passed, defaultsKey, config)` from
src/src/config/project.js: `const a = passed || config?.[defaultsKey];
if (!a) throw ...; return a`. -/
def resolveAccountOrThrow (passed : Option String) (defaultsKey : String)
    (config : Option (JsObj String)) : Except String String :=
  let fromCfg : Option String :=
    match config with
    | some c => jsGet c defaultsKey
    | none => none
  let a : Option String := if jsTruthyStr passed then passed else fromCfg
  if jsTruthyStr a then Except.ok (a.getD "")
  else Except.error (missingAccountMsg defaultsKey)

/-- The account-resolution expression at the head of `dispatchCodex`
(src/src/cli/main.js lines 34-39). -/
def dispatchCodexResolve (accountArg : Option String) (accountIsSubcommand : Bool)
    (projectData : JsObj String) : Except String String :=
  if jsTruthyStr accountArg then
    resolveAccountOrThrow accountArg "codex_account" (some projectData)
  else if accountIsSubcommand then
    Except.ok (jsOrStr (jsGet projectData "codex_account") "default")
  else
    resolveAccountOrThrow none "codex_account" (some projectData)

/-! ## maskEmail (src/src/util/format.js)

JS strings are modelled as `List Char`.  `email[i]` out of range yields
`undefined`, which a template literal renders as the text `undefined`; that
behaviour is kept by `jsCharTpl`.
-/

/-- The template-literal rendering of `s[i]` for a JS string `s`: the
one-character string when in range, the text `undefined` otherwise. -/
def jsCharTpl (l : List Char) (i : Nat) : List Char :=
  match l.drop i with
  | [] => "undefined".toList
  | c :: _ => [c]

/-- The local-part masking expression of `maskEmail`:
`s.length <= 2 ? s[0] + ellipsis : s[0] + ellipsis + s[s.length-1]`. -/
def maskShort (l : List Char) : List Char :=
  if l.length ≤ 2 then jsCharTpl l 0 ++ ['…']
  else jsCharTpl l 0 ++ ['…'] ++ jsCharTpl l (l.length - 1)

/-- `maskEmail(email)` from src/src/util/format.js, on the character list of
the input string (the non-string input branch returning null is omitted:
the claims only concern string inputs). -/
def maskEmail (email : List Char) : List Char :=
  match email.findIdx? (· = '@') with
  | none => maskShort email
  | some i =>
    let lo := email.take i
    let domain := email.drop (i + 1)
    maskShort lo ++ '@' :: domain

/-! ## Project config discovery (src/src/config/git.js, src/src/config/project.js)

A filesystem path is a list of components from the root; `dropLast` is
`path.dirname`.  The filesystem is an oracle telling which directories hold a
`.git` directory, a `.git` file, or a named config file.
-/

/-- An absolute directory path, as components from the filesystem root. -/
abbrev FsPath : Type := List String

/-- The filesystem as seen by config discovery. -/
structure FS where
  hasGitDir : FsPath → Bool
  hasGitFile : FsPath → Bool
  hasFile : FsPath → String → Bool
  parseToml : FsPath → String → Except String (JsObj String)

/-- The upward walk over reversed paths: `path.dirname` (`dropLast`) is
popping the head of the reversed component list, which keeps the recursion
structural. -/
def ancestorsFromRev : List String → List FsPath
  | [] => [[]]
  | c :: rest => (c :: rest).reverse :: ancestorsFromRev rest

/-- The directories `find-up` visits from `cwd`: `cwd`, its parent, ..., the
filesystem root. -/
def ancestorsFrom (d : FsPath) : List FsPath :=
  ancestorsFromRev d.reverse

/-- `findUp('.git', \x7bcwd, type: 'directory'\x7d)`, reported as the directory
holding the `.git` entry (the source then takes `path.dirname`). -/
def findUpGitDir (fs : FS) (cwd : FsPath) : Option FsPath :=
  (ancestorsFrom cwd).find? fs.hasGitDir

/-- `findUp('.git', \x7bcwd, type: 'file'\x7d)`, reported likewise. -/
def findUpGitFile (fs : FS) (cwd : FsPath) : Option FsPath :=
  (ancestorsFrom cwd).find? fs.hasGitFile

/-- `findGitRoot(cwd)` from src/src/config/git.js: a `.git` directory first,
else a `.git` file (worktrees/submodules), else null. -/
def findGitRoot (fs : FS) (cwd : FsPath) : Option FsPath :=
  match findUpGitDir fs cwd with
  | some d => some d
  | none => findUpGitFile fs cwd

/-- The upward walk inside `findProjectConfigToml`, over the reversed
component list of the current directory: at each level prefer
`.accountbox.toml`, then `.devbox.toml`; stop at the git root or the
filesystem root (where `path.dirname(d) === d`). -/
def configWalkRev (fs : FS) (gitRoot : FsPath) : List String → Option (FsPath × String)
  | [] =>
    if fs.hasFile [] ".accountbox.toml" then some ([], ".accountbox.toml")
    else if fs.hasFile [] ".devbox.toml" then some ([], ".devbox.toml")
    else none
  | c :: rest =>
    if fs.hasFile ((c :: rest).reverse) ".accountbox.toml" then
      some ((c :: rest).reverse, ".accountbox.toml")
    else if fs.hasFile ((c :: rest).reverse) ".devbox.toml" then
      some ((c :: rest).reverse, ".devbox.toml")
    else if (c :: rest).reverse = gitRoot then none
    else configWalkRev fs gitRoot rest

/-- The upward walk inside `findProjectConfigToml`, from directory `d`. -/
def configWalk (fs : FS) (gitRoot : FsPath) (d : FsPath) : Option (FsPath × String) :=
  configWalkRev fs gitRoot d.reverse

/-- `findProjectConfigToml(cwd)` from src/src/config/project.js: null when
there is no git root, else the walk from `cwd` up to the git root. -/
def findProjectConfigToml (fs : FS) (cwd : FsPath) : Option (FsPath × String) :=
  match findGitRoot fs cwd with
  | none => none
  | some gitRoot => configWalk fs gitRoot cwd

/-- The `\x7bfile, data\x7d` record `readProjectConfig` resolves to. -/
structure ProjectConfig where
  file : Option (FsPath × String)
  data : JsObj String
  deriving DecidableEq

/-- `readProjectConfig(cwd)` from src/src/config/project.js: empty data when
no config file is discovered; a hard error naming the file on a TOML parse
failure. -/
def readProjectConfig (fs : FS) (cwd : FsPath) : Except String ProjectConfig :=
  match findProjectConfigToml fs cwd with
  | none => Except.ok ⟨none, []⟩
  | some (d, name) =>
    match fs.parseToml d name with
    | Except.ok data => Except.ok ⟨some (d, name), data⟩
    | Except.error e =>
      Except.error ("Failed to parse TOML in " ++ String.intercalate "/" d ++ "/" ++ name ++ ": " ++ e)

/-! ## CredentialLifecycle (src/src/tools/builtins/codex.js)

The state of one codex installation: per-account host credential files and
their timestamped backups, named snapshots, and the per-account container
volume's `/root/.codex/auth.json` copy.  File contents are byte lists.
-/

/-- Raw file contents. -/
abbrev Bytes : Type := List Nat

/-- The on-disk state the codex credential lifecycle manipulates. -/
structure CodexState where
  hostAuth : String → Option Bytes
  hostBackups : String → List (String × Bytes)
  snapshots : String → Option Bytes
  volumeAuth : String → Option Bytes

/-- Point update of a string-keyed map. -/
def updFn {α : Type} (f : String → α) (k : String) (v : α) : String → α :=
  fun x => if x = k then v else f x

/-- `ACCOUNTBOX_HOME` (the root state directory). -/
def ACCOUNTBOX_HOME : String := "~/.accountbox"

/-- `codexHostHome(account)`. -/
def codexHostHome (account : String) : String :=
  ACCOUNTBOX_HOME ++ "/codex/" ++ account

/-- `codexHostAuthJsonPath(account)`. -/
def codexHostAuthJsonPath (account : String) : String :=
  codexHostHome account ++ "/auth.json"

/-- `codexSnapshotsDir()`. -/
def codexSnapshotsDir : String := ACCOUNTBOX_HOME ++ "/codex-snapshots"

/-- `codexSnapshotAuthPath(name)`. -/
def codexSnapshotAuthPath (name : String) : String :=
  codexSnapshotsDir ++ "/" ++ name ++ "/auth.json"

/-- `syncCodexAuthToVolume(account)`: copy the host credential file's bytes
verbatim into the per-account volume at /root/.codex/auth.json; fail when no
host credential exists.  (Image choice and chmod do not affect the bytes.) -/
def syncCodexAuthToVolume (account : String) (s : CodexState) : Except String CodexState :=
  match s.hostAuth account with
  | none =>
    Except.error ("Expected " ++ codexHostAuthJsonPath account ++
      " but it was not found. Codex login may have failed.")
  | some b => Except.ok { s with volumeAuth := updFn s.volumeAuth account (some b) }

/-- `codexHostLogout(account)`: move any host auth.json aside to
`auth.json.logout-bak-<ts>` and return the backup path; null when there is
nothing to move.  Total: the host half has no failure branch. -/
def codexHostLogout (account : String) (ts : String) (s : CodexState) :
    CodexState × Option String :=
  match s.hostAuth account with
  | none => (s, none)
  | some b =>
    ({ s with
        hostAuth := updFn s.hostAuth account none,
        hostBackups := updFn s.hostBackups account
          (("auth.json.logout-bak-" ++ ts, b) :: s.hostBackups account) },
     some (codexHostHome account ++ "/auth.json.logout-bak-" ++ ts))

/-- `saveCodexSnapshot(fromAccount, snapshotName)`: copy the host credential
into the named snapshot; fail when the source account has none. -/
def saveCodexSnapshot (fromAccount snapshotName : String) (s : CodexState) :
    Except String (CodexState × String) :=
  match s.hostAuth fromAccount with
  | none =>
    Except.error ("No auth.json for account '" ++ fromAccount ++ "' at " ++
      codexHostAuthJsonPath fromAccount ++ ". Login first.")
  | some b =>
    Except.ok ({ s with snapshots := updFn s.snapshots snapshotName (some b) },
      codexSnapshotAuthPath snapshotName)

/-- `applyCodexSnapshotToAccount(snapshotName, toAccount)`: fail when the
snapshot is missing; else copy its bytes to the target account's host file
and immediately sync to the volume. -/
def applyCodexSnapshotToAccount (snapshotName toAccount : String) (s : CodexState) :
    Except String (CodexState × String) :=
  match s.snapshots snapshotName with
  | none =>
    Except.error ("Snapshot '" ++ snapshotName ++ "' not found at " ++
      codexSnapshotAuthPath snapshotName ++ ".")
  | some b =>
    match syncCodexAuthToVolume toAccount
        { s with hostAuth := updFn s.hostAuth toAccount (some b) } with
    | Except.error e => Except.error e
    | Except.ok s2 => Except.ok (s2, codexHostAuthJsonPath toAccount)

/-! ## PortGuard (ensureCodexLoginPortFree, canBindTcpPort) -/

/-- One line of `docker ps` output for a container publishing the port. -/
structure ContainerInfo where
  id : String
  name : String
  ports : String
  deriving DecidableEq

/-- Outcome of the loopback bind attempt inside `canBindTcpPort`. -/
inductive BindOutcome where
  | success
  | addrInUse
  | otherError (code : String)
  deriving DecidableEq

/-- The environment `ensureCodexLoginPortFree` consults. -/
structure PortWorld where
  containers : List ContainerInfo
  autoStop : Bool
  bindAttempt : BindOutcome

/-- `canBindTcpPort(port)`: true only when listening succeeds; EADDRINUSE
resolves false, and any other error also resolves false ("treat unknown
errors as not free to avoid false negatives"). -/
def canBindTcpPort (w : PortWorld) : Bool :=
  match w.bindAttempt with
  | BindOutcome.success => true
  | BindOutcome.addrInUse => false
  | BindOutcome.otherError _ => false

/-- The per-container listing line in the port conflict message. -/
def containerLine (c : ContainerInfo) : String :=
  "- " ++ c.name ++ " (" ++ c.id ++ ") " ++ c.ports

/-- `Array.prototype.join('\n')`. -/
def joinLines : List String → String
  | [] => ""
  | [x] => x
  | x :: y :: rest => x ++ "\n" ++ joinLines (y :: rest)

/-- The message thrown when Docker containers publish the port. -/
def portPublishedMsg (port : Nat) (cs : List ContainerInfo) : String :=
  ("Port " ++ toString port ++ " is already published by Docker container(s):\n") ++
    joinLines (cs.map containerLine) ++
    ("\nStop them (docker stop <id>) or set ACCOUNTBOX_CODEX_AUTO_STOP_PORT=1 to auto-stop during login.")

/-- The message thrown when another process holds the port. -/
def portInUseMsg (port : Nat) : String :=
  "Port " ++ toString port ++ " is already in use by another process. Free it, then retry login."

/-- `ensureCodexLoginPortFree(port)` from src/src/tools/builtins/codex.js:
containers publishing the port first (auto-stop only under the opt-in env
var), then the direct loopback bind check. -/
def ensureCodexLoginPortFree (w : PortWorld) (port : Nat) : Except String Unit :=
  if w.containers.length ≠ 0 then
    if w.autoStop then Except.ok ()
    else Except.error (portPublishedMsg port w.containers)
  else if canBindTcpPort w then Except.ok ()
  else Except.error (portInUseMsg port)

/-! ## Login (codexHostLoginAndSync) -/

/-- The login method (`api-key` goes through a different function). -/
inductive LoginMethod where
  | device
  | browser
  deriving DecidableEq

/-- The observable outcome of the external `codex login` child process:
it fails, or it exits successfully having written the credential file into
`CODEX_HOME` (the per-account host directory), or it exits successfully
without writing one. -/
inductive FlowOutcome where
  | flowError (msg : String)
  | writes (b : Bytes)
  | noWrite

/-- `codexHostLoginAndSync(account, \x7bmethod, openBrowser, force\x7d)`:
ensure the host dir, under `force` move an existing auth.json aside to
`auth.json.bak-<ts>`, for the browser method check the callback port, run
the external login flow, and on success unconditionally sync to the volume.
(The URL-triggered browser open is best-effort and does not touch the
credential files, so it is not part of the state.) -/
def codexHostLoginAndSync (account : String) (method : LoginMethod) (force : Bool)
    (ts : String) (pw : PortWorld) (flow : FlowOutcome) (s : CodexState) :
    Except String CodexState :=
  let s :=
    if force then
      match s.hostAuth account with
      | some b =>
        { s with
            hostAuth := updFn s.hostAuth account none,
            hostBackups := updFn s.hostBackups account
              (("auth.json.bak-" ++ ts, b) :: s.hostBackups account) }
      | none => s
    else s
  match (if method = LoginMethod.browser then ensureCodexLoginPortFree pw 1455
         else Except.ok ()) with
  | Except.error e => Except.error e
  | Except.ok () =>
    match flow with
    | FlowOutcome.flowError m => Except.error m
    | FlowOutcome.writes b =>
      syncCodexAuthToVolume account { s with hostAuth := updFn s.hostAuth account (some b) }
    | FlowOutcome.noWrite => syncCodexAuthToVolume account s

/-! ## LimitsFanout (codexLimitsForAccount, codexLimitsAllAccounts)

The per-account fetch reads the host credential file (modelled as its parse
outcome), and performs one outbound request whose outcome is an oracle per
account.  Exceptions are `Except.error`; JS `return \x7bok:false, error\x7d`
values are `Except.ok` carrying an error row.
-/

/-- The parse outcome of one host auth.json for the limits path: unreadable
JSON, or a document with an optional access token and an optional
OPENAI_API_KEY marker. -/
inductive AuthFile where
  | invalid
  | valid (accessToken : Option String) (hasApiKey : Bool)

/-- The outcome of the single `wham/usage` request for an account. -/
inductive FetchResult where
  | ok (usage : String)
  | httpError (status : Nat) (snippet : String)
  | nonJson
  | aborted

/-- The environment the limits fan-out reads. -/
structure LimitsWorld where
  hostAuth : String → Option AuthFile
  fetch : String → FetchResult

/-- `fetchChatgptWhamUsage` for one account: non-2xx, non-JSON and the
timeout abort all throw; a 2xx JSON body is returned. -/
def fetchChatgptWhamUsage (w : LimitsWorld) (account : String) : Except String String :=
  match w.fetch account with
  | FetchResult.ok u => Except.ok u
  | FetchResult.httpError st sn =>
    Except.error ("HTTP " ++ toString st ++ " from wham/usage" ++
      (if sn = "" then "" else ": " ++ sn))
  | FetchResult.nonJson => Except.error "wham/usage returned non-JSON."
  | FetchResult.aborted => Except.error "This operation was aborted"

/-- The `\x7bok, usage|error\x7d` part of one limits row. -/
inductive LimitsReply where
  | usage (u : String)
  | err (e : String)
  deriving DecidableEq, Repr

/-- `codexLimitsForAccount(account, \x7btimeoutMs\x7d)`: missing or
unparseable credentials and missing tokens come back as `ok:false` rows;
only the request itself can throw. -/
def codexLimitsForAccount (w : LimitsWorld) (account : String) : Except String LimitsReply :=
  match w.hostAuth account with
  | none =>
    Except.ok (LimitsReply.err ("missing auth.json (" ++ codexHostAuthJsonPath account ++ ")"))
  | some AuthFile.invalid =>
    Except.ok (LimitsReply.err ("failed to parse auth.json (" ++ codexHostAuthJsonPath account ++ ")"))
  | some (AuthFile.valid none hasApiKey) =>
    Except.ok (LimitsReply.err
      (if hasApiKey then "api-key auth: limits fetch not implemented yet"
       else "missing access_token (not logged in?)"))
  | some (AuthFile.valid (some _) _) =>
    match fetchChatgptWhamUsage w account with
    | Except.ok u => Except.ok (LimitsReply.usage u)
    | Except.error e => Except.error e

/-- One row of the aggregate result: `\x7baccount, ...r\x7d`. -/
structure LimitsRow where
  account : String
  reply : LimitsReply
  deriving DecidableEq, Repr

/-- The body of one worker iteration for the account at one index: the
try/catch around `codexLimitsForAccount`, demoting a thrown error to an
`ok:false` row so it never escapes the batch. -/
def limitsRow (w : LimitsWorld) (account : String) : LimitsRow :=
  match codexLimitsForAccount w account with
  | Except.ok r => ⟨account, r⟩
  | Except.error e => ⟨account, LimitsReply.err e⟩

/-- The shared mutable state of `codexLimitsAllAccounts`: the monotone claim
cursor `next`, the indices claimed but not yet written (each worker is
between its `next++` and its `results[i] = ...`), and the result slots. -/
structure PoolState where
  next : Nat
  pending : List Nat
  results : List (Option LimitsRow)
  deriving DecidableEq, Repr

/-- One atomic step of the worker pool over `n` accounts with per-index row
function `f`: a worker claims the next index (`const i = next++`, the index
enters `pending` only when still in range), or a worker finishes index `i`
and writes its row into slot `i`. -/
inductive PoolStep (f : Nat → LimitsRow) (n : Nat) : PoolState → PoolState → Prop where
  | claim (s : PoolState) :
      PoolStep f n s
        ⟨s.next + 1, if s.next < n then s.next :: s.pending else s.pending, s.results⟩
  | write (s : PoolState) (i : Nat) (hmem : i ∈ s.pending) :
      PoolStep f n s ⟨s.next, s.pending.erase i, s.results.set i (some (f i))⟩

/-- The pool states reachable from the initial state (`next = 0`, no claims
in flight, `new Array(accounts.length)` all unset), under any interleaving
of any number of workers. -/
inductive PoolReach (f : Nat → LimitsRow) (n : Nat) : PoolState → Prop where
  | init : PoolReach f n ⟨0, [], List.replicate n none⟩
  | step {s t : PoolState} : PoolReach f n s → PoolStep f n s t → PoolReach f n t

/-- A pool state in which every worker has exited: the cursor has run past
the account list and no claimed index is still unwritten. -/
def PoolDone (n : Nat) (s : PoolState) : Prop := n ≤ s.next ∧ s.pending = []

/-- The per-index row function of `codexLimitsAllAccounts` over a given
account list. -/
def limitsRowAt (w : LimitsWorld) (accounts : List String) (i : Nat) : LimitsRow :=
  limitsRow w (accounts.getD i "")

/-! ## Theorems -/

/-- C2: for every pair of user-level and project-level TOML configurations
that both define a tool definition for the same tool id, the merged tool
definition for that id equals the project-level definition in its entirety
(no field-level merging), and tool ids defined on only one side pass through
unchanged into the merged mapping. -/
theorem mergeTools_project_fully_overrides :
    ∀ (userTools projTools : JsObj ToolDef) (id : String),
      (∀ d : ToolDef, jsGet projTools id = some d →
        jsGet (mergeTools (some ⟨some projTools⟩) (some ⟨some userTools⟩)) id = some d) ∧
      (jsGet projTools id = none →
        jsGet (mergeTools (some ⟨some projTools⟩) (some ⟨some userTools⟩)) id =
          jsGet userTools id) := by
  intro userTools projTools id
  constructor
  · intro d h
    exact jsGet_append_of_some _ _ _ _ h
  · intro h
    exact jsGet_append_of_none _ _ _ h

/-- A sample user tool table: tool `t` with two fields, tool `u` alone. -/
def sampleUserTools : JsObj ToolDef :=
  [("t", [("command", "a"), ("env", "x")]), ("u", [("command", "c")])]

/-- A sample project tool table: tool `t` with a single field. -/
def sampleProjTools : JsObj ToolDef := [("t", [("command", "b")])]

/-- Witness for C2: with both sides defining `t`, the merged `t` is the whole
project definition (the user-only `env` field does not survive), and the
user-only `u` passes through. -/
theorem mergeTools_project_fully_overrides_witness :
    jsGet (mergeTools (some ⟨some sampleProjTools⟩) (some ⟨some sampleUserTools⟩)) "t" =
      some [("command", "b")] ∧
    jsGet (mergeTools (some ⟨some sampleProjTools⟩) (some ⟨some sampleUserTools⟩)) "u" =
      some [("command", "c")] :=
  ⟨(mergeTools_project_fully_overrides sampleUserTools sampleProjTools "t").1
      [("command", "b")] (by decide),
   by
    rw [(mergeTools_project_fully_overrides sampleUserTools sampleProjTools "u").2 (by decide)]
    decide⟩

/-- C7: an account token that is a known helper subcommand or starts with a
dash is prepended to the argument list and the account slot is cleared; and
when it was cleared because it is a recognized subcommand, the dispatch
resolution yields the configured `codex_account` (or `"default"` when none
is configured) and never fails. -/
theorem disambiguate_subcommand_clears_and_defaults :
    ∀ (a : String) (args : List String) (cfg : JsObj String),
      ((CODEX_HELPER_SUBCOMMANDS.contains a = true ∨ jsStartsWith a "-" = true) →
        disambiguateAccountArg (some a) args (some CODEX_HELPER_SUBCOMMANDS) =
          ⟨none, a :: args,
           (!(a == "")) && CODEX_HELPER_SUBCOMMANDS.contains a, jsStartsWith a "-"⟩) ∧
      (CODEX_HELPER_SUBCOMMANDS.contains a = true →
        (disambiguateAccountArg (some a) args (some CODEX_HELPER_SUBCOMMANDS)).accountArg
          = none ∧
        (disambiguateAccountArg (some a) args
            (some CODEX_HELPER_SUBCOMMANDS)).accountIsSubcommand = true) ∧
      (∀ s : String, jsGet cfg "codex_account" = some s → s ≠ "" →
        dispatchCodexResolve none true cfg = Except.ok s) ∧
      (jsGet cfg "codex_account" = none →
        dispatchCodexResolve none true cfg = Except.ok "default") ∧
      (∃ r : String, dispatchCodexResolve none true cfg = Except.ok r) := by
  intro a args cfg
  have hne : CODEX_HELPER_SUBCOMMANDS.contains a = true → (a == "") = false := by
    intro hc
    cases he : (a == "") with
    | false => rfl
    | true =>
      have ha : a = "" := by simpa using he
      subst ha
      simp [CODEX_HELPER_SUBCOMMANDS] at hc
  have hcond : ∀ _ : CODEX_HELPER_SUBCOMMANDS.contains a = true ∨ jsStartsWith a "-" = true,
      ((!(a == "")) && CODEX_HELPER_SUBCOMMANDS.contains a || jsStartsWith a "-") = true := by
    intro h
    rcases h with h | h
    · rw [h, hne h]
      rfl
    · rw [h, Bool.or_true]
  refine ⟨?_, ?_, ?_, ?_, ?_⟩
  · intro h
    show (if (!(a == "")) && CODEX_HELPER_SUBCOMMANDS.contains a || jsStartsWith a "-"
        then (⟨none, a :: args, (!(a == "")) && CODEX_HELPER_SUBCOMMANDS.contains a,
              jsStartsWith a "-"⟩ : DisambigResult)
        else ⟨some a, args, (!(a == "")) && CODEX_HELPER_SUBCOMMANDS.contains a,
              jsStartsWith a "-"⟩) = _
    rw [if_pos (hcond h)]
  · intro h
    have h1 := congrArg DisambigResult.accountArg
      (show disambiguateAccountArg (some a) args (some CODEX_HELPER_SUBCOMMANDS) =
        ⟨none, a :: args, (!(a == "")) && CODEX_HELPER_SUBCOMMANDS.contains a,
         jsStartsWith a "-"⟩ from by
          show (if (!(a == "")) && CODEX_HELPER_SUBCOMMANDS.contains a || jsStartsWith a "-"
              then (⟨none, a :: args, (!(a == "")) && CODEX_HELPER_SUBCOMMANDS.contains a,
                    jsStartsWith a "-"⟩ : DisambigResult)
              else ⟨some a, args, (!(a == "")) && CODEX_HELPER_SUBCOMMANDS.contains a,
                    jsStartsWith a "-"⟩) = _
          rw [if_pos (hcond (Or.inl h))])
    have h2 := congrArg DisambigResult.accountIsSubcommand
      (show disambiguateAccountArg (some a) args (some CODEX_HELPER_SUBCOMMANDS) =
        ⟨none, a :: args, (!(a == "")) && CODEX_HELPER_SUBCOMMANDS.contains a,
         jsStartsWith a "-"⟩ from by
          show (if (!(a == "")) && CODEX_HELPER_SUBCOMMANDS.contains a || jsStartsWith a "-"
              then (⟨none, a :: args, (!(a == "")) && CODEX_HELPER_SUBCOMMANDS.contains a,
                    jsStartsWith a "-"⟩ : DisambigResult)
              else ⟨some a, args, (!(a == "")) && CODEX_HELPER_SUBCOMMANDS.contains a,
                    jsStartsWith a "-"⟩) = _
          rw [if_pos (hcond (Or.inl h))])
    refine ⟨h1, ?_⟩
    rw [h2, h, hne h]
    rfl
  · intro s hs hns
    simp [dispatchCodexResolve, jsTruthyStr, jsOrStr, hs, hns]
  · intro h
    simp [dispatchCodexResolve, jsTruthyStr, jsOrStr, h]
  · refine ⟨jsOrStr (jsGet cfg "codex_account") "default", ?_⟩
    simp [dispatchCodexResolve, jsTruthyStr]

/-- Witness for C7: `accountArg="limits"` is reclassified as a subcommand,
the slot is cleared, and with `codex_account = "try1"` the dispatch
resolution yields `"try1"` (and `"default"` with an empty config). -/
theorem disambiguate_subcommand_clears_and_defaults_witness :
    disambiguateAccountArg (some "limits") ["--json"] (some CODEX_HELPER_SUBCOMMANDS) =
      ⟨none, ["limits", "--json"], true, false⟩ ∧
    dispatchCodexResolve none true [("codex_account", "try1")] = Except.ok "try1" ∧
    dispatchCodexResolve none true [] = Except.ok "default" := by
  refine ⟨?_, ?_, ?_⟩
  · have h := (disambiguate_subcommand_clears_and_defaults "limits" ["--json"] []).1
      (Or.inl (by decide))
    rw [h]
    show DisambigResult.mk none ["limits", "--json"]
        ((!("limits" == "")) && CODEX_HELPER_SUBCOMMANDS.contains "limits")
        (jsStartsWith "limits" "-") = _
    decide
  · exact (disambiguate_subcommand_clears_and_defaults "limits" []
      [("codex_account", "try1")]).2.2.1 "try1" (by decide) (by decide)
  · exact (disambiguate_subcommand_clears_and_defaults "limits" [] []).2.2.2.1 (by decide)

/-- C8 counterexample: with no passed account and a *present but empty*
`codex_account` entry, the claim as stated says the empty entry is returned,
but `resolveAccountOrThrow` treats the empty string as falsy and throws the
missing-account error instead. -/
theorem resolveAccountOrThrow_present_empty_counterexample :
    resolveAccountOrThrow none "codex_account" (some [("codex_account", "")]) =
      Except.error (missingAccountMsg "codex_account") ∧
    resolveAccountOrThrow none "codex_account" (some [("codex_account", "")]) ≠
      Except.ok "" := by
  have h : resolveAccountOrThrow none "codex_account" (some [("codex_account", "")]) =
      Except.error (missingAccountMsg "codex_account") := rfl
  refine ⟨h, ?_⟩
  rw [h]
  intro hc
  exact Except.noConfusion hc

/-- C8 as amended: `resolveAccountOrThrow` returns `passed` when non-empty;
otherwise returns `config[defaultsKey]` when that entry is present *and
non-empty*; otherwise (entry absent or empty) raises the missing-account
error, whose message names `defaultsKey`. -/
theorem resolveAccountOrThrow_spec :
    ∀ (passed : Option String) (key : String) (cfg : JsObj String),
      (∀ p : String, passed = some p → p ≠ "" →
        resolveAccountOrThrow passed key (some cfg) = Except.ok p) ∧
      ((passed = none ∨ passed = some "") →
        ∀ v : String, jsGet cfg key = some v → v ≠ "" →
          resolveAccountOrThrow passed key (some cfg) = Except.ok v) ∧
      ((passed = none ∨ passed = some "") →
        (jsGet cfg key = none ∨ jsGet cfg key = some "") →
          resolveAccountOrThrow passed key (some cfg) =
            Except.error (missingAccountMsg key)) ∧
      missingAccountMsg key =
        "Missing account. Provide <account> or set a default in .accountbox.toml (" ++
          key ++ ")." := by
  intro passed key cfg
  refine ⟨?_, ?_, ?_, rfl⟩
  · intro p hp hne
    subst hp
    simp [resolveAccountOrThrow, jsTruthyStr, hne]
  · intro hp v hv hne
    rcases hp with hp | hp <;> subst hp <;>
      simp [resolveAccountOrThrow, jsTruthyStr, hv, hne]
  · intro hp hv
    rcases hp with hp | hp <;> subst hp <;>
      rcases hv with hv | hv <;>
        simp [resolveAccountOrThrow, jsTruthyStr, hv]

/-- Witness for C8 (amended): the spec scenario — project config
`codex_account = "try1"`, nothing passed — resolves to `"try1"`; a passed
label wins; and with nothing configured the error names `codex_account`. -/
theorem resolveAccountOrThrow_spec_witness :
    resolveAccountOrThrow none "codex_account" (some [("codex_account", "try1")]) =
      Except.ok "try1" ∧
    resolveAccountOrThrow (some "a2") "codex_account"
      (some [("codex_account", "try1")]) = Except.ok "a2" ∧
    resolveAccountOrThrow none "codex_account" (some []) =
      Except.error (missingAccountMsg "codex_account") :=
  ⟨(resolveAccountOrThrow_spec none "codex_account"
      [("codex_account", "try1")]).2.1 (Or.inl rfl) "try1" (by decide) (by decide),
   (resolveAccountOrThrow_spec (some "a2") "codex_account"
      [("codex_account", "try1")]).1 "a2" rfl (by decide),
   (resolveAccountOrThrow_spec none "codex_account" []).2.2.1
      (Or.inl rfl) (Or.inl (by decide))⟩

/-- C9 counterexample: for `"ab@example.com"` the local part has two
characters; the claimed rule (keep first *and last* character of the local
part) would give `"a…b@example.com"`, but `maskEmail` drops the last
character and yields `"a…@example.com"`. -/
theorem maskEmail_short_local_counterexample :
    maskEmail ("ab@example.com".toList) = ("a…@example.com".toList) ∧
    maskEmail ("ab@example.com".toList) ≠ ("a…b@example.com".toList) := by
  constructor
  · rfl
  · decide

/-- `s[0]` of a non-empty JS string is its first character. -/
theorem jsCharTpl_zero {l : List Char} (h : l ≠ []) : jsCharTpl l 0 = [l.headD ' '] := by
  cases l with
  | nil => exact absurd rfl h
  | cons c rest => rfl

/-- `s[s.length-1]` of a non-empty JS string is its last character. -/
theorem jsCharTpl_last {l : List Char} (h : l ≠ []) :
    jsCharTpl l (l.length - 1) = [l.getLastD ' '] := by
  induction l with
  | nil => exact absurd rfl h
  | cons c rest ih =>
    cases rest with
    | nil => rfl
    | cons d tail =>
      have hne : (d :: tail) ≠ ([] : List Char) := by simp
      have : jsCharTpl (c :: d :: tail) ((c :: d :: tail).length - 1) =
          jsCharTpl (d :: tail) ((d :: tail).length - 1) := by
        simp [jsCharTpl, List.length_cons]
      rw [this, ih hne]
      simp [List.getLastD_cons]

/-- C9 as amended: for every string containing `'@'`, when the local part
has at least three characters `maskEmail` keeps its first and last
characters with an ellipsis between them and the domain unchanged; when the
local part has one or two characters the result is the first character, the
ellipsis, and the unchanged domain (the last character is dropped). -/
theorem maskEmail_spec :
    ∀ (email : List Char) (i : Nat),
      email.findIdx? (· = '@') = some i →
      email.take i ≠ [] →
      (3 ≤ (email.take i).length →
        maskEmail email =
          (email.take i).headD ' ' :: '…' :: (email.take i).getLastD ' ' ::
            '@' :: email.drop (i + 1)) ∧
      ((email.take i).length ≤ 2 →
        maskEmail email =
          (email.take i).headD ' ' :: '…' :: '@' :: email.drop (i + 1)) := by
  intro email i hfind hne
  constructor
  · intro hlen
    have hnle : ¬ (email.take i).length ≤ 2 := by omega
    simp only [maskEmail, hfind, maskShort, if_neg hnle]
    rw [jsCharTpl_zero hne, jsCharTpl_last hne]
    simp
  · intro hlen
    simp only [maskEmail, hfind, maskShort, if_pos hlen]
    rw [jsCharTpl_zero hne]
    simp

/-- Witness for C9 (amended): the spec scenario `"roshan@example.com"`
masks to `"r…n@example.com"`, via the amended rule. -/
theorem maskEmail_spec_witness :
    maskEmail ("roshan@example.com".toList) = ("r…n@example.com".toList) := by
  have h := (maskEmail_spec ("roshan@example.com".toList) 6 (by decide) (by decide)).1
    (by decide)
  rw [h]
  decide

/-- C10: in a working directory with no `.git` directory or `.git` file in
itself or any ancestor, `findProjectConfigToml` returns null and
`readProjectConfig` returns empty data, regardless of any
`.accountbox.toml`/`.devbox.toml` present on the path. -/
theorem no_git_root_no_project_config :
    ∀ (fs : FS) (cwd : FsPath),
      (∀ d ∈ ancestorsFrom cwd, fs.hasGitDir d = false ∧ fs.hasGitFile d = false) →
      findProjectConfigToml fs cwd = none ∧
      readProjectConfig fs cwd = Except.ok ⟨none, []⟩ := by
  intro fs cwd h
  have hdir : findUpGitDir fs cwd = none := by
    apply List.find?_eq_none.mpr
    intro d hd
    simp [(h d hd).1]
  have hfile : findUpGitFile fs cwd = none := by
    apply List.find?_eq_none.mpr
    intro d hd
    simp [(h d hd).2]
  have hroot : findGitRoot fs cwd = none := by
    simp [findGitRoot, hdir, hfile]
  have hfind : findProjectConfigToml fs cwd = none := by
    simp [findProjectConfigToml, hroot]
  exact ⟨hfind, by simp [readProjectConfig, hfind]⟩

/-- A filesystem with a project config file in the working directory but no
version-control marker anywhere. -/
def fsNoGit : FS :=
  ⟨fun _ => false, fun _ => false,
   fun d name => d = ["home", "proj"] && name = ".accountbox.toml",
   fun _ _ => Except.ok []⟩

/-- Witness for C10: even with `.accountbox.toml` sitting in the working
directory, discovery returns null and the project config is empty. -/
theorem no_git_root_no_project_config_witness :
    findProjectConfigToml fsNoGit ["home", "proj"] = none ∧
    readProjectConfig fsNoGit ["home", "proj"] = Except.ok ⟨none, []⟩ :=
  no_git_root_no_project_config fsNoGit ["home", "proj"] (by decide)

/-- When `sync` succeeds it wrote the host file's bytes into the volume slot
and touched nothing else. -/
theorem syncCodexAuthToVolume_ok {a : String} {s s' : CodexState}
    (h : syncCodexAuthToVolume a s = Except.ok s') :
    s'.volumeAuth a = s.hostAuth a ∧ s'.hostAuth = s.hostAuth ∧
      (s.hostAuth a).isSome := by
  cases hh : s.hostAuth a with
  | none => simp [syncCodexAuthToVolume, hh] at h
  | some b =>
    simp only [syncCodexAuthToVolume, hh] at h
    cases h
    refine ⟨?_, rfl, by simp [hh]⟩
    simp [updFn, hh]

/-- After a successful `sync`, host and volume agree at the account. -/
theorem syncCodexAuthToVolume_identical {a : String} {s s' : CodexState}
    (h : syncCodexAuthToVolume a s = Except.ok s') :
    s'.volumeAuth a = s'.hostAuth a ∧ (s'.hostAuth a).isSome := by
  obtain ⟨h1, h2, h3⟩ := syncCodexAuthToVolume_ok h
  rw [h1, h2]
  exact ⟨rfl, h3⟩

/-- C1: after a successful login (device or browser method, which
unconditionally performs sync) and after a successful switch/apply onto an
account, the host credential file and the container-volume credential file
hold byte-identical contents; the account-with-no-prior-credential case is
the instance `s.hostAuth account = none`. -/
theorem login_and_switch_host_volume_identical :
    ∀ (account : String) (method : LoginMethod) (force : Bool) (ts : String)
      (pw : PortWorld) (flow : FlowOutcome) (s s' : CodexState)
      (name tgt : String) (t t' : CodexState) (p : String),
      (codexHostLoginAndSync account method force ts pw flow s = Except.ok s' →
        s'.volumeAuth account = s'.hostAuth account ∧ (s'.hostAuth account).isSome) ∧
      (applyCodexSnapshotToAccount name tgt t = Except.ok (t', p) →
        t'.volumeAuth tgt = t'.hostAuth tgt ∧ (t'.hostAuth tgt).isSome) := by
  intro account method force ts pw flow s s' name tgt t t' p
  constructor
  · intro h
    simp only [codexHostLoginAndSync] at h
    split at h
    · exact absurd h (by simp)
    · split at h
      · exact absurd h (by simp)
      · exact syncCodexAuthToVolume_identical h
      · exact syncCodexAuthToVolume_identical h
  · intro h
    simp only [applyCodexSnapshotToAccount] at h
    split at h
    · exact absurd h (by simp)
    · split at h
      · exact absurd h (by simp)
      · rename_i s2 heq
        cases h
        exact syncCodexAuthToVolume_identical heq

/-- The empty codex state: no credentials, backups, snapshots or volumes. -/
def emptyCodexState : CodexState :=
  ⟨fun _ => none, fun _ => [], fun _ => none, fun _ => none⟩

/-- A port world with no conflicting container and a bindable port. -/
def pwFree : PortWorld := ⟨[], false, BindOutcome.success⟩

/-- The state after a device login writing bytes `[1, 2]` for account `a`
from the empty state. -/
def loginWitnessState : CodexState :=
  { hostAuth := updFn emptyCodexState.hostAuth "a" (some [1, 2]),
    hostBackups := emptyCodexState.hostBackups,
    snapshots := emptyCodexState.snapshots,
    volumeAuth := updFn emptyCodexState.volumeAuth "a" (some [1, 2]) }

/-- A state holding only snapshot `snap` with bytes `[3]`. -/
def snapOnlyState : CodexState :=
  { emptyCodexState with snapshots := updFn emptyCodexState.snapshots "snap" (some [3]) }

/-- The state after applying snapshot `snap` onto account `b`. -/
def applyWitnessState : CodexState :=
  { hostAuth := updFn snapOnlyState.hostAuth "b" (some [3]),
    hostBackups := snapOnlyState.hostBackups,
    snapshots := snapOnlyState.snapshots,
    volumeAuth := updFn snapOnlyState.volumeAuth "b" (some [3]) }

/-- Witness for C1: a device login for the fresh account `a` (no prior host
credential) and a snapshot apply onto account `b` both end with host and
volume byte-identical. -/
theorem login_and_switch_host_volume_identical_witness :
    (loginWitnessState.volumeAuth "a" = loginWitnessState.hostAuth "a" ∧
      (loginWitnessState.hostAuth "a").isSome) ∧
    (applyWitnessState.volumeAuth "b" = applyWitnessState.hostAuth "b" ∧
      (applyWitnessState.hostAuth "b").isSome) :=
  ⟨(login_and_switch_host_volume_identical "a" LoginMethod.device false "ts" pwFree
      (FlowOutcome.writes [1, 2]) emptyCodexState loginWitnessState
      "snap" "b" snapOnlyState applyWitnessState (codexHostAuthJsonPath "b")).1 rfl,
   (login_and_switch_host_volume_identical "a" LoginMethod.device false "ts" pwFree
      (FlowOutcome.writes [1, 2]) emptyCodexState loginWitnessState
      "snap" "b" snapOnlyState applyWitnessState (codexHostAuthJsonPath "b")).2 rfl⟩

/-- Whether an `Except` value is a success. -/
def exceptOk {ε α : Type} : Except ε α → Bool
  | Except.ok _ => true
  | Except.error _ => false

/-- C4: after `save(A, N)` succeeds, any later `switch(N, B)` from a state
in which snapshot `N` is unchanged succeeds and leaves `B`'s host credential
byte-identical to `A`'s credential as of save time (`s0.hostAuth A`), even
if `A`'s host credential changed in between (`s2` is arbitrary elsewhere);
and `switch` fails when the named snapshot does not exist. -/
theorem snapshot_save_then_switch_spec :
    ∀ (A N B : String) (s0 s1 s2 : CodexState) (p1 : String),
      (saveCodexSnapshot A N s0 = Except.ok (s1, p1) →
       s2.snapshots N = s1.snapshots N →
       exceptOk (applyCodexSnapshotToAccount N B s2) = true ∧
       (∀ (s3 : CodexState) (p3 : String),
         applyCodexSnapshotToAccount N B s2 = Except.ok (s3, p3) →
         p3 = codexHostAuthJsonPath B ∧ s3.hostAuth B = s0.hostAuth A ∧
           (s0.hostAuth A).isSome)) ∧
      (s2.snapshots N = none →
       applyCodexSnapshotToAccount N B s2 =
         Except.error ("Snapshot '" ++ N ++ "' not found at " ++
           codexSnapshotAuthPath N ++ ".")) := by
  intro A N B s0 s1 s2 p1
  constructor
  · intro hsave hsnap
    cases hh : s0.hostAuth A with
    | none => simp [saveCodexSnapshot, hh] at hsave
    | some b =>
      simp only [saveCodexSnapshot, hh, Except.ok.injEq, Prod.mk.injEq] at hsave
      obtain ⟨h1, h2⟩ := hsave
      subst h1
      have hs2 : s2.snapshots N = some b := by
        rw [hsnap]
        show updFn s0.snapshots N (some b) N = some b
        simp [updFn]
      constructor
      · simp [applyCodexSnapshotToAccount, hs2, syncCodexAuthToVolume, updFn, exceptOk]
      · intro s3 p3 happ
        simp only [applyCodexSnapshotToAccount, hs2, syncCodexAuthToVolume, updFn] at happ
        simp only [if_pos] at happ
        simp only [Except.ok.injEq, Prod.mk.injEq] at happ
        obtain ⟨h3, h4⟩ := happ
        subst h3
        exact ⟨h4.symm, by simp [updFn, hh], by simp [hh]⟩
  · intro h
    simp [applyCodexSnapshotToAccount, h]

/-- Account `a` holding credential bytes `[7]`, nothing else. -/
def saveSourceState : CodexState :=
  { emptyCodexState with hostAuth := updFn emptyCodexState.hostAuth "a" (some [7]) }

/-- `saveSourceState` after `save("a", "snap1")`. -/
def savedState : CodexState :=
  { saveSourceState with snapshots := updFn saveSourceState.snapshots "snap1" (some [7]) }

/-- `savedState` after account `a`'s credential changed to `[9]`. -/
def changedState : CodexState :=
  { savedState with hostAuth := updFn savedState.hostAuth "a" (some [9]) }

/-- `changedState` after `switch("snap1", "b")`. -/
def switchedState : CodexState :=
  { hostAuth := updFn changedState.hostAuth "b" (some [7]),
    hostBackups := changedState.hostBackups,
    snapshots := changedState.snapshots,
    volumeAuth := updFn changedState.volumeAuth "b" (some [7]) }

/-- Witness for C4: save `a`'s bytes `[7]` as `snap1`, change `a` to `[9]`,
then switch `snap1` onto `b`: the switch succeeds and `b` gets the
save-time bytes; switching a missing snapshot fails. -/
theorem snapshot_save_then_switch_spec_witness :
    exceptOk (applyCodexSnapshotToAccount "snap1" "b" changedState) = true ∧
    (codexHostAuthJsonPath "b" = codexHostAuthJsonPath "b" ∧
     switchedState.hostAuth "b" = saveSourceState.hostAuth "a" ∧
     (saveSourceState.hostAuth "a").isSome) ∧
    applyCodexSnapshotToAccount "missing" "b" emptyCodexState =
      Except.error ("Snapshot 'missing' not found at " ++
        codexSnapshotAuthPath "missing" ++ ".") :=
  have H := (snapshot_save_then_switch_spec "a" "snap1" "b" saveSourceState savedState
    changedState (codexSnapshotAuthPath "snap1")).1 rfl rfl
  ⟨H.1, H.2 switchedState (codexHostAuthJsonPath "b") rfl,
   (snapshot_save_then_switch_spec "a" "missing" "b" emptyCodexState emptyCodexState
     emptyCodexState "").2 rfl⟩

/-- C5: the host-layer half of logout is idempotent.  The operation is a
total function (no failure branch), so calling it twice never raises; the
second call performs no move and reports no backup (`none`); the first call
moves an existing auth.json to the timestamp-suffixed backup (preserving its
bytes among the account's backups, never deleting them), and is a no-op
reporting no backup when no credential exists. -/
theorem host_logout_idempotent_spec :
    ∀ (a ts1 ts2 : String) (s : CodexState),
      codexHostLogout a ts2 (codexHostLogout a ts1 s).1 =
        ((codexHostLogout a ts1 s).1, none) ∧
      (∀ b : Bytes, s.hostAuth a = some b →
        (codexHostLogout a ts1 s).2 =
          some (codexHostHome a ++ "/auth.json.logout-bak-" ++ ts1) ∧
        (codexHostLogout a ts1 s).1.hostAuth a = none ∧
        (codexHostLogout a ts1 s).1.hostBackups a =
          ("auth.json.logout-bak-" ++ ts1, b) :: s.hostBackups a) ∧
      (s.hostAuth a = none → codexHostLogout a ts1 s = (s, none)) := by
  intro a ts1 ts2 s
  cases hh : s.hostAuth a with
  | none =>
    refine ⟨?_, ?_, fun _ => by simp [codexHostLogout, hh]⟩
    · simp [codexHostLogout, hh]
    · intro b hb
      exact Option.noConfusion hb
  | some b =>
    refine ⟨?_, ?_, fun h => Option.noConfusion h⟩
    · simp [codexHostLogout, hh, updFn]
    · intro b' hb
      cases hb
      refine ⟨?_, ?_, ?_⟩ <;> simp [codexHostLogout, hh, updFn]

/-- Account `a` holding credential bytes `[4]`, nothing else. -/
def logoutStartState : CodexState :=
  { emptyCodexState with hostAuth := updFn emptyCodexState.hostAuth "a" (some [4]) }

/-- Witness for C5: logging out account `a` twice from a logged-in state
moves the file once and the second call reports no backup and changes
nothing. -/
theorem host_logout_idempotent_spec_witness :
    codexHostLogout "a" "t2" (codexHostLogout "a" "t1" logoutStartState).1 =
      ((codexHostLogout "a" "t1" logoutStartState).1, none) ∧
    (codexHostLogout "a" "t1" logoutStartState).2 =
      some (codexHostHome "a" ++ "/auth.json.logout-bak-" ++ "t1") ∧
    (codexHostLogout "a" "t1" logoutStartState).1.hostAuth "a" = none :=
  have H := host_logout_idempotent_spec "a" "t1" "t2" logoutStartState
  ⟨H.1, (H.2.1 [4] rfl).1, (H.2.1 [4] rfl).2.1⟩

/-- Every member of a joined line list appears verbatim in the join. -/
theorem joinLines_decomp :
    ∀ (l : List String) (x : String), x ∈ l → ∃ p q, joinLines l = p ++ x ++ q := by
  intro l
  induction l with
  | nil => intro x hx; cases hx
  | cons a rest ih =>
    intro x hx
    cases rest with
    | nil =>
      have hxa : x = a := by
        cases hx with
        | head => rfl
        | tail _ h => cases h
      subst hxa
      exact ⟨"", "", by simp [joinLines]⟩
    | cons b rest2 =>
      cases hx with
      | head =>
        exact ⟨"", "\n" ++ joinLines (b :: rest2),
          by simp [joinLines, String.append_assoc]⟩
      | tail _ h =>
        obtain ⟨p, q, hpq⟩ := ih x h
        exact ⟨a ++ "\n" ++ p, q,
          by simp [joinLines, hpq, String.append_assoc]⟩

/-- The port conflict message lists each offending container's identity. -/
theorem portPublishedMsg_mentions :
    ∀ (port : Nat) (cs : List ContainerInfo) (c : ContainerInfo), c ∈ cs →
      ∃ p q, portPublishedMsg port cs = p ++ containerLine c ++ q := by
  intro port cs c hc
  obtain ⟨p, q, hpq⟩ := joinLines_decomp (cs.map containerLine) (containerLine c)
    (List.mem_map_of_mem containerLine hc)
  refine ⟨("Port " ++ toString port ++ " is already published by Docker container(s):\n") ++ p,
    q ++ ("\nStop them (docker stop <id>) or set ACCOUNTBOX_CODEX_AUTO_STOP_PORT=1 to auto-stop during login."),
    ?_⟩
  simp [portPublishedMsg, hpq, String.append_assoc]

/-- C6: `ensureFree(port)` fails listing the offending container identities
and a remediation hint whenever a running container publishes the port and
the auto-stop opt-in is unset; stops them and succeeds when the opt-in is
set; and with no offending container it succeeds exactly when the loopback
bind succeeds, failing conservatively on a bind error of any kind. -/
theorem port_guard_spec :
    ∀ (w : PortWorld) (port : Nat),
      (w.containers ≠ [] → w.autoStop = false →
        ensureCodexLoginPortFree w port =
          Except.error (portPublishedMsg port w.containers) ∧
        ∀ c ∈ w.containers,
          ∃ p q, portPublishedMsg port w.containers = p ++ containerLine c ++ q) ∧
      (w.containers ≠ [] → w.autoStop = true →
        ensureCodexLoginPortFree w port = Except.ok ()) ∧
      (w.containers = [] →
        ((ensureCodexLoginPortFree w port = Except.ok ()) ↔
          w.bindAttempt = BindOutcome.success) ∧
        (w.bindAttempt ≠ BindOutcome.success →
          ensureCodexLoginPortFree w port = Except.error (portInUseMsg port))) := by
  intro w port
  refine ⟨?_, ?_, ?_⟩
  · intro hne hstop
    have hlen : w.containers.length ≠ 0 := by
      intro h0
      exact hne (List.length_eq_zero.mp h0)
    refine ⟨?_, fun c hc => portPublishedMsg_mentions port w.containers c hc⟩
    simp [ensureCodexLoginPortFree, hlen, hstop]
  · intro hne hstop
    have hlen : w.containers.length ≠ 0 := by
      intro h0
      exact hne (List.length_eq_zero.mp h0)
    simp [ensureCodexLoginPortFree, hlen, hstop]
  · intro hnil
    constructor
    · cases hb : w.bindAttempt <;>
        simp [ensureCodexLoginPortFree, hnil, canBindTcpPort, hb]
    · intro hne
      cases hb : w.bindAttempt with
      | success => exact absurd hb hne
      | addrInUse => simp [ensureCodexLoginPortFree, hnil, canBindTcpPort, hb]
      | otherError c => simp [ensureCodexLoginPortFree, hnil, canBindTcpPort, hb]

/-- A running container publishing the login port. -/
def conflictContainer : ContainerInfo :=
  ⟨"abc123", "codex-login", "0.0.0.0:1455->1455/tcp"⟩

/-- The conflicting-container world without the auto-stop opt-in. -/
def pwConflict : PortWorld := ⟨[conflictContainer], false, BindOutcome.success⟩

/-- The conflicting-container world with the auto-stop opt-in. -/
def pwAutoStop : PortWorld := ⟨[conflictContainer], true, BindOutcome.success⟩

/-- No container conflict, but the bind attempt fails with a non-EADDRINUSE
error. -/
def pwOtherErr : PortWorld := ⟨[], false, BindOutcome.otherError "EACCES"⟩

/-- Witness for C6: container conflict fails (unless auto-stop is opted
into), a bindable port passes, and a non-EADDRINUSE bind failure still
reports the port as in use. -/
theorem port_guard_spec_witness :
    ensureCodexLoginPortFree pwConflict 1455 =
      Except.error (portPublishedMsg 1455 [conflictContainer]) ∧
    ensureCodexLoginPortFree pwAutoStop 1455 = Except.ok () ∧
    ensureCodexLoginPortFree pwFree 1455 = Except.ok () ∧
    ensureCodexLoginPortFree pwOtherErr 1455 = Except.error (portInUseMsg 1455) :=
  ⟨((port_guard_spec pwConflict 1455).1 (by decide) rfl).1,
   (port_guard_spec pwAutoStop 1455).2.1 (by decide) rfl,
   ((port_guard_spec pwFree 1455).2.2 rfl).1.mpr rfl,
   ((port_guard_spec pwOtherErr 1455).2.2 rfl).2 (by decide)⟩

/-- The pool invariant: the result array keeps its length, every claimed
index is in range, and every in-range index the cursor has passed is either
still in flight or already holds its row. -/
def PoolInv (f : Nat → LimitsRow) (n : Nat) (s : PoolState) : Prop :=
  s.results.length = n ∧
  (∀ i ∈ s.pending, i < n) ∧
  (∀ i, i < n → i < s.next → i ∈ s.pending ∨ s.results.get? i = some (some (f i)))

theorem poolInv_init (f : Nat → LimitsRow) (n : Nat) :
    PoolInv f n ⟨0, [], List.replicate n none⟩ := by
  refine ⟨List.length_replicate n none, by simp, ?_⟩
  intro i _ h2
  exact absurd h2 (by simp)

theorem poolInv_step {f : Nat → LimitsRow} {n : Nat} {s t : PoolState}
    (hs : PoolInv f n s) (st : PoolStep f n s t) : PoolInv f n t := by
  obtain ⟨hlen, hpend, hinv⟩ := hs
  cases st with
  | claim =>
    refine ⟨hlen, ?_, ?_⟩
    · intro i hi
      dsimp only at hi
      by_cases hc : s.next < n
      · rw [if_pos hc] at hi
        cases hi with
        | head => exact hc
        | tail _ h => exact hpend i h
      · rw [if_neg hc] at hi
        exact hpend i hi
    · intro i hin hlt
      dsimp only at hlt ⊢
      by_cases he : i = s.next
      · subst he
        left
        rw [if_pos hin]
        exact List.mem_cons_self _ _
      · have hlt2 : i < s.next := by omega
        rcases hinv i hin hlt2 with h | h
        · left
          by_cases hc : s.next < n
          · rw [if_pos hc]
            exact List.mem_cons_of_mem _ h
          · rw [if_neg hc]
            exact h
        · right
          exact h
  | write i hmem =>
    refine ⟨by simp [hlen], ?_, ?_⟩
    · intro j hj
      dsimp only at hj
      exact hpend j (List.mem_of_mem_erase hj)
    · intro j hjn hjlt
      dsimp only at hjlt ⊢
      by_cases he : j = i
      · subst he
        right
        exact List.get?_set_eq_of_lt _ (by rw [hlen]; exact hjn)
      · rcases hinv j hjn hjlt with h | h
        · left
          exact (List.mem_erase_of_ne he).mpr h
        · right
          rw [List.get?_set_ne _ _ (fun hc => he hc.symm)]
          exact h

theorem poolInv_reach {f : Nat → LimitsRow} {n : Nat} {s : PoolState}
    (h : PoolReach f n s) : PoolInv f n s := by
  induction h with
  | init => exact poolInv_init f n
  | step _ st ih => exact poolInv_step ih st

/-- Each row carries its account label unchanged. -/
theorem limitsRow_account (w : LimitsWorld) (a : String) :
    (limitsRow w a).account = a := by
  cases h : codexLimitsForAccount w a <;> simp [limitsRow, h]

/-- Each row is either a success with usage or a failure with an error. -/
theorem limitsRow_shape (w : LimitsWorld) (a : String) :
    (∃ u, (limitsRow w a).reply = LimitsReply.usage u) ∨
    (∃ e, (limitsRow w a).reply = LimitsReply.err e) := by
  cases h : codexLimitsForAccount w a with
  | ok r =>
    cases r with
    | usage u => exact Or.inl ⟨u, by simp [limitsRow, h]⟩
    | err e => exact Or.inr ⟨e, by simp [limitsRow, h]⟩
  | error e => exact Or.inr ⟨e, by simp [limitsRow, h]⟩

/-- C3: whatever the interleaving (hence for every concurrency setting),
once every worker of `codexLimitsAllAccounts` has finished, the result array
has one entry per input account, the entry at index `i` is the row for the
`i`-th account with its label, every entry is either a success with usage or
a failure with an error value, and no slot is left unpopulated — a single
account's failure is confined to its own row. -/
theorem limits_fanout_spec :
    ∀ (w : LimitsWorld) (accounts : List String) (s : PoolState),
      PoolReach (limitsRowAt w accounts) accounts.length s →
      PoolDone accounts.length s →
      s.results.length = accounts.length ∧
      (∀ i, i < accounts.length →
        s.results.get? i = some (some (limitsRow w (accounts.getD i ""))) ∧
        (limitsRow w (accounts.getD i "")).account = accounts.getD i "" ∧
        ((∃ u, (limitsRow w (accounts.getD i "")).reply = LimitsReply.usage u) ∨
         (∃ e, (limitsRow w (accounts.getD i "")).reply = LimitsReply.err e))) := by
  intro w accounts s hreach hdone
  obtain ⟨hlen, _, hinv⟩ := poolInv_reach hreach
  obtain ⟨hnext, hempty⟩ := hdone
  refine ⟨hlen, ?_⟩
  intro i hi
  have hlt : i < s.next := lt_of_lt_of_le hi hnext
  rcases hinv i hi hlt with h | h
  · rw [hempty] at h
    cases h
  · exact ⟨h, limitsRow_account w (accounts.getD i ""),
      limitsRow_shape w (accounts.getD i "")⟩

/-- A limits world where account `a` has no host credential and account `b`
fetches successfully. -/
def limW : LimitsWorld :=
  ⟨fun a => if a = "b" then some (AuthFile.valid (some "tok") false) else none,
   fun a => if a = "b" then FetchResult.ok "usage-b" else FetchResult.aborted⟩

/-- The row function over the two-account list. -/
def fW : Nat → LimitsRow := limitsRowAt limW ["a", "b"]

/-- The pool state after both workers finished. -/
def poolFinal : PoolState := ⟨2, [], [some (fW 0), some (fW 1)]⟩

/-- A concrete schedule reaching `poolFinal`: two claims, then the two
writes. -/
theorem poolFinal_reach : PoolReach fW 2 poolFinal := by
  have r0 : PoolReach fW 2 ⟨0, [], [none, none]⟩ := PoolReach.init
  have r1 : PoolReach fW 2 ⟨1, [0], [none, none]⟩ :=
    r0.step (PoolStep.claim ⟨0, [], [none, none]⟩)
  have r2 : PoolReach fW 2 ⟨2, [1, 0], [none, none]⟩ :=
    r1.step (PoolStep.claim ⟨1, [0], [none, none]⟩)
  have r3 : PoolReach fW 2 ⟨2, [1], [some (fW 0), none]⟩ :=
    r2.step (PoolStep.write ⟨2, [1, 0], [none, none]⟩ 0 (by simp))
  exact r3.step (PoolStep.write ⟨2, [1], [some (fW 0), none]⟩ 1 (by simp))

/-- Witness for C3: with account `a` failing (missing credential) and `b`
succeeding, the finished pool holds two entries in input order — an error
row for `a` and a usage row for `b`. -/
theorem limits_fanout_spec_witness :
    poolFinal.results.length = 2 ∧
    poolFinal.results.get? 0 = some (some ⟨"a",
      LimitsReply.err ("missing auth.json (" ++ codexHostAuthJsonPath "a" ++ ")")⟩) ∧
    poolFinal.results.get? 1 = some (some ⟨"b", LimitsReply.usage "usage-b"⟩) := by
  have H := limits_fanout_spec limW ["a", "b"] poolFinal poolFinal_reach
    ⟨by decide, rfl⟩
  refine ⟨H.1, ?_, ?_⟩
  · rw [(H.2 0 (by decide)).1]
    rfl
  · rw [(H.2 1 (by decide)).1]
    rfl

end Accountbox
